import Mathlib

/-
Shallow embedding of `src/import_export/fields.py` (the `Field` class of
django-import-export) and proofs about its clean / get_value / save / export
contract.

Modelling conventions:
  * Python values are the inductive `PyVal`.  An object (`PyVal.vobj`) carries
    an association list of plain attributes, a list of attribute names whose
    access raises `ValueError`/`ObjectDoesNotExist` (modelling ORM relation
    descriptors on objects without identity), and an optional schema
    (`_meta`): an association list from field name to `FieldKind`.
    Values other than objects expose no attributes, so `getattr` on them
    falls back to the supplied default.
  * Zero-argument callables are `PyVal.vfn ret` (calling returns `ret`);
    Django `Manager` instances are `PyVal.vmanager ret` — callable, but
    `get_value` must not call them (fields.py lines 101-104).
  * Exceptions become the `Exc` sum; fallible operations return `Except`.
  * Mutation (`save`) is modelled functionally: `Field.save` returns the
    updated object and field, or the exception.  The source performs the
    read-only segment walk first, then evaluates `clean(data)`, and only
    then executes `setattr`; the embedding keeps exactly that order, so an
    error result means no assignment was performed.
  * The field itself is threaded through `clean`/`save` because
    `Field.clean` memoizes a callable default into `self.default`
    (fields.py lines 67-70).
-/

set_option autoImplicit false
set_option maxRecDepth 8192

namespace ImportExport

/-- Kind of a schema field, as seen through `isinstance(field, RelatedField)`
in `fields.py` line 114. -/
inductive FieldKind where
  | scalar
  | relational
deriving DecidableEq

/-- Python exceptions that the code under `src/import_export/fields.py` can
raise or catch. `objectDoesNotExist` stands for the
`(ValueError, ObjectDoesNotExist)` pair caught at line 94. -/
inductive Exc where
  | keyError (msg : String)
  | valueError (msg : String)
  | objectDoesNotExist
  | fieldDoesNotExist (name : String)
  | attributeError (msg : String)
deriving DecidableEq

/-- Python runtime values, specialised to what `fields.py` manipulates. -/
inductive PyVal where
  | vnone
  | vbool (b : Bool)
  | vint (n : Int)
  | vstr (s : String)
  /-- A zero-argument callable; calling it returns `ret`. -/
  | vfn (ret : PyVal)
  /-- A Django `Manager`: callable (Django >= 1.7) but never invoked by
  `get_value`; calling it would return `ret`. -/
  | vmanager (ret : PyVal)
  /-- An object: plain attributes, attribute names whose access raises
  `ValueError`/`ObjectDoesNotExist`, and the optional `_meta` schema. -/
  | vobj (attrs : List (String × PyVal)) (raising : List String)
      (meta : Option (List (String × FieldKind)))

/-- The `django.db.models.fields.NOT_PROVIDED` sentinel versus an actual
default value (which may itself be a callable `PyVal`). -/
inductive DefaultVal where
  | notProvided
  | val (v : PyVal)

/-- Modelled from the spec: the Widget collaborator (`widgets.py` is not under
`src/`).  Capability set `\x7bclean(raw) -> value, render(value) -> string\x7d`;
`clean` may fail with a value error (carrying its message). -/
structure Widget where
  clean : PyVal → Except String PyVal
  render : PyVal → String

/-- The `Field` class of `fields.py` (its data attributes). -/
structure Field where
  attribute' : Option String
  column_name : Option String
  widget : Widget
  default : DefaultVal
  readonly : Bool

/-- First-match association-list lookup over string keys (Python attribute
dictionaries, `_meta` field lookup and row mappings). -/
def alistLookup {α : Type} : List (String × α) → String → Option α
  | [], _ => none
  | (k, w) :: rest, name => if k = name then some w else alistLookup rest name

/-- `s.split('__')` for the fixed two-character separator used by
`fields.py` lines 81, 109 and 121 (greedy left-to-right, like Python). -/
def pySplitAux : List Char → List Char → List String
  | [], acc => [String.mk acc.reverse]
  | '_' :: '_' :: rest, acc => String.mk acc.reverse :: pySplitAux rest []
  | c :: rest, acc => pySplitAux rest (c :: acc)

/-- `attribute.split('__')`. -/
def pySplit (s : String) : List String :=
  pySplitAux s.data []

/-- Python truthiness (`if not value` at line 67). -/
def pyFalsy : PyVal → Bool
  | .vnone => true
  | .vbool b => !b
  | .vint n => n == 0
  | .vstr s => s.isEmpty
  | .vfn _ => false
  | .vmanager _ => false
  | .vobj _ _ _ => false

/-- Python `callable(value)` for our value universe (functions and managers). -/
def pyCallable : PyVal → Bool
  | .vfn _ => true
  | .vmanager _ => true
  | _ => false

/-- `isinstance(value, Manager)`. -/
def isManagerV : PyVal → Bool
  | .vmanager _ => true
  | _ => false

/-- Invoking a zero-argument callable. Only ever applied after a
`pyCallable` check. -/
def pyCall : PyVal → PyVal
  | .vfn r => r
  | .vmanager r => r
  | v => v

/-- `value is None`. -/
def isNone : PyVal → Bool
  | .vnone => true
  | _ => false

/-- `getattr(value, name, None)` (fields.py lines 91, 93, 123): objects look
up their attribute dictionary after the raising-descriptor check; every other
value has no attributes, so the `None` default is returned. -/
def getattrD : PyVal → String → Except Exc PyVal
  | .vobj attrs raising _, name =>
      if name ∈ raising then .error .objectDoesNotExist
      else .ok ((alistLookup attrs name).getD .vnone)
  | _, _ => .ok .vnone

/-- The post-traversal callable step of `get_value` (fields.py lines
101-104): call the final value unless it is a `Manager`. -/
def finishValue (v : PyVal) : PyVal :=
  if pyCallable v && !isManagerV v then pyCall v else v

/-- The value an attribute read `getattr(obj, name, None)` produces once the
`except (ValueError, ObjectDoesNotExist)` recovery of `get_value` is taken
into account: `None` when absent or when access raises, the stored value
otherwise.  Used only to state results about `get_value`. -/
def rawAttr (attrs : List (String × PyVal)) (raising : List String)
    (name : String) : PyVal :=
  if name ∈ raising then .vnone
  else (alistLookup attrs name).getD .vnone

/-- `NOT_PROVIDED` test (`self.default != NOT_PROVIDED`, line 67). -/
def isNotProvided : DefaultVal → Bool
  | .notProvided => true
  | .val _ => false

/-- A single quote character, for reproducing Python string reprs. -/
def sq : String := String.singleton (Char.ofNat 39)

/-- Python `repr` of a list of strings, element part: `'a', 'b'`. -/
def pyListReprAux : List String → String
  | [] => ""
  | [k] => sq ++ k ++ sq
  | k :: rest => sq ++ k ++ sq ++ ", " ++ pyListReprAux rest

/-- Python `str(list(data.keys()))`, e.g. `['a', 'b']`. -/
def pyListRepr (keys : List String) : String :=
  "[" ++ pyListReprAux keys ++ "]"

/-- `'%s' % column_name` (with `None` printed as Python prints it). -/
def colRepr : Option String → String
  | some c => c
  | none => "None"

/-- The message of the `KeyError` re-raised by `Field.clean`
(fields.py lines 59-60). -/
def missingColumnMessage (col : Option String) (keys : List String) : String :=
  "Column " ++ sq ++ colRepr col ++ sq ++
    " not found in dataset. Available columns are: " ++ pyListRepr keys

/-- `data[self.column_name]` as an optional lookup: row keys are strings, so
a `None` column name is never found. -/
def rowLookup (col : Option String) (data : List (String × PyVal)) :
    Option PyVal :=
  match col with
  | some c => alistLookup data c
  | none => none

/-- The keys of a row mapping, in row (insertion) order. -/
def rowKeys (data : List (String × PyVal)) : List String :=
  data.map Prod.fst

/-- Whether the field's `column_name` is a key of the row mapping
(`column_name in row`); a `None` column name is never a key. -/
def hasColumnKey (col : Option String) (data : List (String × PyVal)) : Bool :=
  match col with
  | some c => decide (c ∈ rowKeys data)
  | none => false

/-- `Field.clean` (fields.py lines 51-72): column lookup (`KeyError`
re-raised with the available columns), widget conversion (`ValueError`
re-raised with the column prefixed), then default substitution for falsy
values, memoizing a callable default into `self.default`. -/
def Field.clean (f : Field) (data : List (String × PyVal)) :
    Except Exc (PyVal × Field) :=
  match rowLookup f.column_name data with
  | none => .error (.keyError (missingColumnMessage f.column_name (rowKeys data)))
  | some raw =>
    match f.widget.clean raw with
    | .error m =>
        .error (.valueError ("Column " ++ sq ++ colRepr f.column_name ++ sq ++ ": " ++ m))
    | .ok value =>
        if pyFalsy value && !isNotProvided f.default then
          match f.default with
          | .val d =>
              if pyCallable d then .ok (pyCall d, { f with default := .val (pyCall d) })
              else .ok (d, f)
          | .notProvided => .ok (value, f)
        else .ok (value, f)

/-- `Field.is_related_field` (fields.py lines 108-114): false for any
multi-segment path; otherwise looks the single segment up in the object's
`_meta` schema.  A value without `_meta` raises `AttributeError`; an unknown
field name raises `FieldDoesNotExist`; neither is caught by the callers. -/
def Field.is_related_field (f : Field) (v : PyVal) : Except Exc Bool :=
  match f.attribute' with
  | none => .error (.attributeError "NoneType object has no attribute split")
  | some a =>
    match pySplit a with
    | [seg] =>
      match v with
      | .vobj _ _ (some schema) =>
        match alistLookup schema seg with
        | some FieldKind.relational => .ok true
        | some _ => .ok false
        | none => .error (.fieldDoesNotExist seg)
      | _ => .error (.attributeError "object has no attribute _meta")
    | _ => .ok false

/-- The segment loop of `Field.get_value` (fields.py lines 84-99).
Result `.ok none` is the early `return None`; `.ok (some v)` is falling off
the loop with `value = v`.  The `try` at line 85 catches only
`ValueError`/`ObjectDoesNotExist` from the `getattr`; errors raised by
`is_related_field` propagate. -/
def Field.getValueLoop (f : Field) : List String → PyVal → Except Exc (Option PyVal)
  | [], value => .ok (some value)
  | attr :: rest, value =>
    match f.is_related_field value with
    | .error e => .error e
    | .ok related =>
      match (if related then getattrD value (attr ++ "_id") else getattrD value attr) with
      | .error _ => .ok none
      | .ok v => if isNone v then .ok none else f.getValueLoop rest v

/-- `Field.get_value` (fields.py lines 74-105). -/
def Field.get_value (f : Field) (obj : PyVal) : Except Exc PyVal :=
  match f.attribute' with
  | none => .ok .vnone
  | some a =>
    match f.getValueLoop (pySplit a) obj with
    | .error e => .error e
    | .ok none => .ok .vnone
    | .ok (some value) => .ok (finishValue value)

/-- The read-only walk of `Field.save` over `attrs[:-1]`
(fields.py lines 122-123): `getattr(obj, attr, None)` at each hop, with
descriptor errors propagating (nothing catches them in `save`). -/
def walkGetattr : PyVal → List String → Except Exc PyVal
  | v, [] => .ok v
  | v, a :: rest =>
    match getattrD v a with
    | .error e => .error e
    | .ok v' => walkGetattr v' rest

/-- `setattr` on an attribute dictionary: replace the first binding of the
name, or append it. -/
def setAttrList : List (String × PyVal) → String → PyVal → List (String × PyVal)
  | [], name, v => [(name, v)]
  | (k, w) :: rest, name, v =>
      if k = name then (k, v) :: rest else (k, w) :: setAttrList rest name v

/-- The heap effect of `setattr` at the end of `Field.save`, expressed as a
functional update of the object tree along the already-walked path.  Only
reached when `walkGetattr` succeeded and the walked-to target is an object,
so the fall-through cases are never hit on the paths `save` takes. -/
def writeBack : PyVal → List String → String → PyVal → PyVal
  | .vobj attrs raising meta, [], last, newv =>
      .vobj (setAttrList attrs last newv) (raising.erase last) meta
  | v, [], _, _ => v
  | .vobj attrs raising meta, a :: rest, last, newv =>
      if a ∈ raising then .vobj attrs raising meta
      else .vobj
        (setAttrList attrs a
          (writeBack ((alistLookup attrs a).getD .vnone) rest last newv))
        raising meta
  | v, _ :: _, _, _ => v

/-- `Field.save` (fields.py lines 116-124).  No-op when `readonly`.
Otherwise: split the attribute (raising on `None`), walk `attrs[:-1]` with
plain reads, evaluate `self.clean(data)` (its exceptions propagate before
any assignment), then perform `setattr(target, attrs[-1], value)` — an
`AttributeError` if the walked-to target is not an object. -/
def Field.save (f : Field) (obj : PyVal) (data : List (String × PyVal)) :
    Except Exc (PyVal × Field) :=
  if f.readonly then .ok (obj, f)
  else
    match f.attribute' with
    | none => .error (.attributeError "NoneType object has no attribute split")
    | some a =>
      match walkGetattr obj (pySplit a).dropLast with
      | .error e => .error e
      | .ok target =>
        match f.clean data with
        | .error e => .error e
        | .ok (value, f') =>
          match target with
          | .vobj _ _ _ =>
              .ok (writeBack obj (pySplit a).dropLast ((pySplit a).getLastD "") value, f')
          | _ => .error (.attributeError "cannot set attribute")

/-- `Field.export` (fields.py lines 126-136); primed because `export` is a
Lean keyword.  `None` becomes the empty string; a related field (checked
against the original object) bypasses the widget; otherwise the widget
renders the value. -/
def Field.export' (f : Field) (obj : PyVal) : Except Exc PyVal :=
  match f.get_value obj with
  | .error e => .error e
  | .ok value =>
    if isNone value then .ok (.vstr "")
    else
      match f.is_related_field obj with
      | .error e => .error e
      | .ok true => .ok value
      | .ok false => .ok (.vstr (f.widget.render value))

/-- Modelled from the spec: the default pass-through widget substituted at
construction when none is given (`widgets.Widget`, not under `src/`):
`clean` returns the raw value unchanged, `render` stringifies like Python
`str`. -/
def defaultWidget : Widget where
  clean := fun v => .ok v
  render := fun v =>
    match v with
    | .vnone => "None"
    | .vbool b => if b then "True" else "False"
    | .vint n => toString n
    | .vstr s => s
    | .vfn _ => "<function>"
    | .vmanager _ => "<manager>"
    | .vobj _ _ _ => "<object>"

/-- Byte-wise lexicographic comparison of strings (ascending), used only to
state what "the sorted column names" would be in concrete scenarios. -/
def charListLeb : List Char → List Char → Bool
  | [], _ => true
  | _ :: _, [] => false
  | a :: as, b :: bs =>
      if a.val < b.val then true
      else if b.val < a.val then false
      else charListLeb as bs

/-- Lexicographic `a <= b` on strings. -/
def strLeb (a b : String) : Bool :=
  charListLeb a.data b.data

/-- Insert into a lexicographically sorted list of strings. -/
def insertSorted (k : String) : List String → List String
  | [] => [k]
  | x :: xs => if strLeb k x then k :: x :: xs else x :: insertSorted k xs

/-- Insertion sort of column names, ascending. -/
def sortKeys : List String → List String
  | [] => []
  | k :: ks => insertSorted k (sortKeys ks)

/-
Concrete fixtures used by witnesses and counterexamples.
-/

/-- A scalar single-segment field: `Field(attribute="name", column_name="Name")`. -/
def nameField : Field :=
  { attribute' := some "name", column_name := some "Name",
    widget := defaultWidget, default := .val .vnone, readonly := false }

/-- An object with `name = "Alice"` and a schema declaring `name` scalar. -/
def aliceObj : PyVal :=
  .vobj [("name", .vstr "Alice")] [] (some [("name", .scalar)])

/-- An object whose `name` attribute is the empty string. -/
def emptyNameObj : PyVal :=
  .vobj [("name", .vstr "")] [] (some [("name", .scalar)])

/-- An object with a `name` schema entry but no `name` attribute set. -/
def noNameObj : PyVal :=
  .vobj [] [] (some [("name", .scalar)])

/-- A field whose single-segment attribute `foo` is not declared in the
object schema. -/
def fooField : Field :=
  { attribute' := some "foo", column_name := some "foo",
    widget := defaultWidget, default := .val .vnone, readonly := false }

/-- An object carrying a plain `foo` attribute but an empty schema, so
`_meta.get_field("foo")` raises. -/
def emptySchemaObj : PyVal :=
  .vobj [("foo", .vint 5)] [] (some [])

/-- A single-segment relational field: `Field(attribute="category",
column_name="cat")`. -/
def categoryField : Field :=
  { attribute' := some "category", column_name := some "cat",
    widget := defaultWidget, default := .val .vnone, readonly := false }

/-- An object with `category` relational in the schema and `category_id = 5`. -/
def categoryObj : PyVal :=
  .vobj [("category_id", .vint 5)] [] (some [("category", .relational)])

/-- A two-segment field: `Field(attribute="a__b", column_name="col")`. -/
def pathField : Field :=
  { attribute' := some "a__b", column_name := some "col",
    widget := defaultWidget, default := .val .vnone, readonly := false }

/-- An object whose `a` attribute is an (empty) object. -/
def nestedObj : PyVal :=
  .vobj [("a", .vobj [] [] none)] [] none

/-- An object whose `a` attribute is `None`, so the `a__b` traversal stops. -/
def nullAObj : PyVal :=
  .vobj [("a", .vnone)] [] (some [])

/-- A field with a callable default producing 7. -/
def fnDefaultField : Field :=
  { attribute' := some "n", column_name := some "c",
    widget := defaultWidget, default := .val (.vfn (.vint 7)), readonly := false }

/-- A readonly field. -/
def readonlyField : Field :=
  { attribute' := some "n", column_name := some "c",
    widget := defaultWidget, default := .notProvided, readonly := true }

/-- The row `{"b": 1, "a": 2}` whose keys are not in sorted order. -/
def unsortedRow : List (String × PyVal) :=
  [("b", .vint 1), ("a", .vint 2)]

/-
Helper lemmas.
-/

theorem isNone_iff_eq {v : PyVal} : isNone v = true ↔ v = .vnone := by
  cases v <;> simp [isNone]

theorem isNone_eq_false {v : PyVal} (h : v ≠ .vnone) : isNone v = false := by
  cases v <;> simp_all [isNone]

theorem finishValue_not_callable {v : PyVal} (h : pyCallable v = false) :
    finishValue v = v := by
  simp [finishValue, h]

theorem alistLookup_eq_none_iff {α : Type} {l : List (String × α)} {name : String} :
    alistLookup l name = none ↔ name ∉ l.map Prod.fst := by
  induction l with
  | nil => simp [alistLookup]
  | cons p rest ih =>
    obtain ⟨k, w⟩ := p
    by_cases hk : k = name
    · subst hk
      simp [alistLookup]
    · simp only [alistLookup, if_neg hk, ih, List.map_cons, List.mem_cons]
      constructor
      · intro h hor
        rcases hor with h1 | h2
        · exact hk h1.symm
        · exact h h2
      · intro h hm
        exact h (Or.inr hm)

theorem setAttrList_lookup_self {l : List (String × PyVal)} {k : String} {w : PyVal} :
    alistLookup (setAttrList l k w) k = some w := by
  induction l with
  | nil => simp [setAttrList, alistLookup]
  | cons p rest ih =>
    obtain ⟨k0, w0⟩ := p
    by_cases hk : k0 = k <;> simp [setAttrList, alistLookup, hk, ih]

theorem setAttrList_lookup_ne {l : List (String × PyVal)} {k name : String}
    {w : PyVal} (h : k ≠ name) :
    alistLookup (setAttrList l k w) name = alistLookup l name := by
  induction l with
  | nil => simp [setAttrList, alistLookup, h]
  | cons p rest ih =>
    obtain ⟨k0, w0⟩ := p
    by_cases hk : k0 = k
    · subst hk
      simp [setAttrList, alistLookup, h, ih]
    · simp [setAttrList, alistLookup, hk, ih]

theorem append_id_ne (s : String) : s ++ "_id" ≠ s := by
  intro h
  have h2 := congrArg String.length h
  rw [String.length_append] at h2
  have h3 : "_id".length = 3 := rfl
  omega

theorem getValueLoop_append (f : Field) (xs ys : List String) (v : PyVal) :
    f.getValueLoop (xs ++ ys) v =
      match f.getValueLoop xs v with
      | .error e => .error e
      | .ok none => .ok none
      | .ok (some w) => f.getValueLoop ys w := by
  induction xs generalizing v with
  | nil => simp [Field.getValueLoop]
  | cons a xs ih =>
    simp only [List.cons_append, Field.getValueLoop]
    cases hrel : f.is_related_field v with
    | error e => simp
    | ok related =>
      cases hga : (if related = true then getattrD v (a ++ "_id") else getattrD v a) with
      | error e => simp [hga]
      | ok w =>
        simp only [hga]
        by_cases hw : isNone w = true
        · simp [hw]
        · simp [hw, List.append_eq, ih]

theorem rowLookup_none_iff {col : Option String} {data : List (String × PyVal)} :
    rowLookup col data = none ↔ hasColumnKey col data = false := by
  cases col with
  | none => simp [rowLookup, hasColumnKey]
  | some c => simp [rowLookup, hasColumnKey, alistLookup_eq_none_iff, rowKeys]

theorem data_append (a b : String) : (a ++ b).data = a.data ++ b.data :=
  String.data_append a b

theorem mem_infix_pyListReprAux {k : String} {keys : List String}
    (h : k ∈ keys) : k.data <:+: (pyListReprAux keys).data := by
  induction keys with
  | nil => cases h
  | cons k0 rest ih =>
    cases rest with
    | nil =>
      have hk : k = k0 := by simpa using h
      subst hk
      exact ⟨sq.data, sq.data, by simp [pyListReprAux, data_append]⟩
    | cons r rs =>
      rcases List.mem_cons.mp h with h1 | h2
      · subst h1
        exact ⟨sq.data, (sq ++ ", " ++ pyListReprAux (r :: rs)).data,
          by simp [pyListReprAux, data_append]⟩
      · obtain ⟨s, t, hst⟩ := ih h2
        refine ⟨(sq ++ k0 ++ sq ++ ", ").data ++ s, t, ?_⟩
        simp only [pyListReprAux, data_append, ← hst]
        simp [List.append_assoc]

theorem mem_infix_missingColumnMessage {k : String} {keys : List String}
    {col : Option String} (h : k ∈ keys) :
    k.data <:+: (missingColumnMessage col keys).data := by
  obtain ⟨s, t, hst⟩ := mem_infix_pyListReprAux h
  refine ⟨("Column " ++ sq ++ colRepr col ++ sq ++
    " not found in dataset. Available columns are: " ++ "[").data ++ s,
    t ++ ("]" : String).data, ?_⟩
  simp only [missingColumnMessage, pyListRepr, data_append, ← hst]
  simp [List.append_assoc]

/-
Claim theorems.
-/

/-- Claim C9: `save(obj, row)` with `readonly=True` leaves the object
unchanged and never invokes `clean` — in this functional model, the result
is exactly the unmodified object and field, for any object and row. -/
theorem save_readonly_noop (f : Field) (obj : PyVal)
    (data : List (String × PyVal)) (h : f.readonly = true) :
    f.save obj data = .ok (obj, f) := by
  simp [Field.save, h]

/-- Witness for C9 at a concrete readonly field. -/
theorem save_readonly_noop_witness :
    readonlyField.save aliceObj [("zzz", .vint 1)] = .ok (aliceObj, readonlyField) :=
  save_readonly_noop readonlyField aliceObj [("zzz", .vint 1)] rfl

/-- Claim C3 (amended): `export(obj)` returns the empty string whenever
`get_value(obj)` is `None`.  (The converse of the original claim fails: a
non-`None` value can render to the empty string, see the counterexample.) -/
theorem export_empty_of_none (f : Field) (obj : PyVal)
    (h : f.get_value obj = .ok .vnone) :
    f.export' obj = .ok (.vstr "") := by
  simp [Field.export', h, isNone]

/-- Witness for C3: a field whose attribute is absent resolves to `None`
and exports as `""`. -/
theorem export_empty_of_none_witness :
    nameField.export' noNameObj = .ok (.vstr "") :=
  export_empty_of_none nameField noNameObj rfl

/-- Counterexample to C3 as stated: an object whose `name` attribute is the
empty string resolves to a non-`None` value, yet `export` still returns the
empty string (the pass-through widget renders `""` as `""`), so "export
yields `\"\"` if and only if resolution yields `None`" is false. -/
theorem export_empty_iff_counterexample :
    nameField.get_value emptyNameObj = .ok (.vstr "") ∧
    nameField.export' emptyNameObj = .ok (.vstr "") ∧
    PyVal.vstr "" ≠ PyVal.vnone :=
  ⟨rfl, rfl, fun h => nomatch h⟩

/-- Claim C10: for a non-readonly field with a configured attribute, if
`clean(data)` raises then `save(obj, data)` performs no assignment: the
model returns an error (carrying no updated object), and when the
read-only segment walk succeeds the error is exactly `clean`'s. -/
theorem save_atomic_on_clean_error (f : Field) (obj : PyVal)
    (data : List (String × PyVal)) (a : String) (e : Exc)
    (hro : f.readonly = false) (hattr : f.attribute' = some a)
    (hclean : f.clean data = .error e) :
    (∃ e2, f.save obj data = .error e2) ∧
    (∀ t, walkGetattr obj (pySplit a).dropLast = .ok t →
      f.save obj data = .error e) := by
  simp only [Field.save, hro, hattr, Bool.false_eq_true, if_false]
  cases hwalk : walkGetattr obj (pySplit a).dropLast with
  | error e3 =>
    refine ⟨⟨e3, rfl⟩, ?_⟩
    intro t ht
    exact Except.noConfusion ht
  | ok t =>
    rw [hclean]
    exact ⟨⟨e, rfl⟩, fun _ _ => rfl⟩

/-- Witness for C10: a missing column makes `clean` raise and `save` return
that same `KeyError`, with no assignment. -/
theorem save_atomic_on_clean_error_witness :
    pathField.save nestedObj unsortedRow =
      .error (.keyError (missingColumnMessage (some "col") ["b", "a"])) :=
  (save_atomic_on_clean_error pathField nestedObj unsortedRow "a__b"
    (.keyError (missingColumnMessage (some "col") ["b", "a"])) rfl rfl rfl).2
    (.vobj [] [] none) rfl

/-- Claim C2 (amended): `clean(row)` raises the missing-column `KeyError`
iff `column_name` is not a key of the row, and the error message lists the
available column names in their row order (not sorted): it is exactly the
template around `list(data.keys())`, and every available column name occurs
in it. -/
theorem clean_missing_column_iff (f : Field) (data : List (String × PyVal)) :
    ((∃ m, f.clean data = .error (.keyError m)) ↔
      hasColumnKey f.column_name data = false) ∧
    (hasColumnKey f.column_name data = false →
      f.clean data =
        .error (.keyError (missingColumnMessage f.column_name (rowKeys data))) ∧
      ∀ k ∈ rowKeys data,
        k.data <:+: (missingColumnMessage f.column_name (rowKeys data)).data) := by
  cases hl : rowLookup f.column_name data with
  | none =>
    have hfalse : hasColumnKey f.column_name data = false := rowLookup_none_iff.mp hl
    refine ⟨⟨fun _ => hfalse,
      fun _ => ⟨missingColumnMessage f.column_name (rowKeys data), by simp [Field.clean, hl]⟩⟩,
      fun _ => ⟨by simp [Field.clean, hl], fun k hk => mem_infix_missingColumnMessage hk⟩⟩
  | some raw =>
    have htrue : hasColumnKey f.column_name data = true := by
      cases hrc : hasColumnKey f.column_name data
      · exact absurd (rowLookup_none_iff.mpr hrc) (by simp [hl])
      · rfl
    refine ⟨⟨?_, fun h => by rw [htrue] at h; exact Bool.noConfusion h⟩,
      fun h => by rw [htrue] at h; exact Bool.noConfusion h⟩
    rintro ⟨m, hm⟩
    exfalso
    cases hw : f.widget.clean raw with
    | error m2 =>
      simp [Field.clean, hl, hw] at hm
    | ok value =>
      simp only [Field.clean, hl, hw] at hm
      split at hm
      · split at hm
        · split at hm <;> exact Except.noConfusion hm
        · exact Except.noConfusion hm
      · exact Except.noConfusion hm

/-- Witness for C2 (amended) at a concrete field and row with a missing
column: the message is the full listing in row order. -/
theorem clean_missing_column_iff_witness :
    pathField.clean unsortedRow =
      .error (.keyError (missingColumnMessage (some "col") (rowKeys unsortedRow))) :=
  ((clean_missing_column_iff pathField unsortedRow).2 (by decide)).1

/-- Counterexample to C2 as stated: for the row `\x7b"b": 1, "a": 2\x7d` and
column `"col"`, `clean` raises the missing-column error, but its message
shows the keys in row order `['b', 'a']` and does not contain the sorted
listing `['a', 'b']` (and `["a", "b"]` is indeed the sorted arrangement of
the row's keys). -/
theorem clean_missing_column_sorted_counterexample :
    pathField.clean unsortedRow =
      .error (.keyError (missingColumnMessage (some "col") ["b", "a"])) ∧
    sortKeys (rowKeys unsortedRow) = ["a", "b"] ∧
    ¬ ((pyListRepr (sortKeys (rowKeys unsortedRow))).data <:+:
        (missingColumnMessage (some "col") (rowKeys unsortedRow)).data) ∧
    ((pyListRepr ["b", "a"]).data <:+:
        (missingColumnMessage (some "col") (rowKeys unsortedRow)).data) :=
  ⟨rfl, rfl, by decide, by decide⟩

/-- Claim C5: when the widget-cleaned value is falsy, `clean` substitutes
the default unless it is the `NOT_PROVIDED` sentinel; a callable default is
invoked and its result cached back into the field, so a second call returns
the cached value without re-invoking (stated for value-producing callables,
whose result is not itself callable). -/
theorem clean_default_substitution (f : Field) (data : List (String × PyVal))
    (raw value : PyVal)
    (hlook : rowLookup f.column_name data = some raw)
    (hw : f.widget.clean raw = .ok value)
    (hfalsy : pyFalsy value = true) :
    (f.default = .notProvided → f.clean data = .ok (value, f)) ∧
    (∀ d, f.default = .val d → pyCallable d = false → f.clean data = .ok (d, f)) ∧
    (∀ d, f.default = .val d → pyCallable d = true → pyCallable (pyCall d) = false →
      f.clean data = .ok (pyCall d, { f with default := .val (pyCall d) }) ∧
      Field.clean { f with default := .val (pyCall d) } data =
        .ok (pyCall d, { f with default := .val (pyCall d) })) := by
  refine ⟨?_, ?_, ?_⟩
  · intro hd
    simp [Field.clean, hlook, hw, hfalsy, hd, isNotProvided]
  · intro d hd hc
    simp [Field.clean, hlook, hw, hfalsy, hd, isNotProvided, hc]
  · intro d hd hc hc2
    constructor
    · simp [Field.clean, hlook, hw, hfalsy, hd, isNotProvided, hc]
    · simp [Field.clean, hlook, hw, hfalsy, isNotProvided, hc2]

/-- Witness for C5: a callable default producing 7 is invoked on a falsy
cleaned value, memoized, and returned again by the later call. -/
theorem clean_default_substitution_witness :
    fnDefaultField.clean [("c", .vstr "")] =
      .ok (.vint 7, { fnDefaultField with default := .val (.vint 7) }) ∧
    Field.clean { fnDefaultField with default := .val (.vint 7) } [("c", .vstr "")] =
      .ok (.vint 7, { fnDefaultField with default := .val (.vint 7) }) :=
  (clean_default_substitution fnDefaultField [("c", .vstr "")] (.vstr "") (.vstr "")
    rfl rfl rfl).2.2 (.vfn (.vint 7)) rfl rfl rfl

/-- Claim C1 (amended): for a single-segment attribute that names a
NON-relational field of the object's schema, `get_value` reads the attribute
normally: the stored value (invoked with no arguments when callable and not
a manager), `None` when the attribute is absent (or its access raises the
recovered relation errors), and no exception.  (A segment absent from the
schema instead makes the schema lookup raise, see the counterexample.) -/
theorem getValue_single_scalar (f : Field)
    (attrs : List (String × PyVal)) (raising : List String)
    (schema : List (String × FieldKind)) (seg : String) (k : FieldKind)
    (hattr : f.attribute' = some seg)
    (hsingle : pySplit seg = [seg])
    (hfield : alistLookup schema seg = some k)
    (hk : k ≠ .relational) :
    f.get_value (.vobj attrs raising (some schema)) =
      .ok (finishValue (rawAttr attrs raising seg)) := by
  have hk2 : k = .scalar := by
    cases k
    · rfl
    · exact absurd rfl hk
  subst hk2
  have hrel : f.is_related_field (.vobj attrs raising (some schema)) = .ok false := by
    simp [Field.is_related_field, hattr, hsingle, hfield]
  simp only [Field.get_value, hattr, hsingle, Field.getValueLoop, hrel]
  by_cases hmem : seg ∈ raising
  · simp [getattrD, hmem, rawAttr, finishValue, pyCallable, isManagerV]
  · cases hlook : alistLookup attrs seg with
    | none =>
      simp [getattrD, hmem, hlook, rawAttr, isNone, finishValue, pyCallable, isManagerV]
    | some w =>
      by_cases hwn : w = PyVal.vnone
      · subst hwn
        simp [getattrD, hmem, hlook, rawAttr, isNone, finishValue, pyCallable, isManagerV]
      · simp [getattrD, hmem, hlook, rawAttr, isNone_eq_false hwn, Field.getValueLoop]

/-- Witness for C1 (amended): `name` is scalar in the schema, and reading
yields the stored string. -/
theorem getValue_single_scalar_witness :
    nameField.get_value aliceObj =
      .ok (finishValue (rawAttr [("name", .vstr "Alice")] [] "name")) ∧
    finishValue (rawAttr [("name", .vstr "Alice")] [] "name") = .vstr "Alice" :=
  ⟨getValue_single_scalar nameField [("name", .vstr "Alice")] [] [("name", .scalar)]
    "name" .scalar rfl (by decide) rfl (by decide), rfl⟩

/-- Counterexample to C1 as stated: the single segment `foo` does not name a
relational field of the (empty) schema — it names no field at all — and
`get_value` then raises `FieldDoesNotExist` from `_meta.get_field` instead
of reading the attribute and returning its value. -/
theorem getValue_single_scalar_counterexample :
    alistLookup ([] : List (String × FieldKind)) "foo" = none ∧
    fooField.get_value emptySchemaObj = .error (.fieldDoesNotExist "foo") :=
  ⟨rfl, rfl⟩

/-- Claim C6: for a single-segment attribute naming a relational schema
field, `get_value` reads the `<segment>_id` identifier attribute (`None`
when absent or unset) and never dereferences the related object: the result
is a function of the `<segment>_id` attribute only, and replacing the value
stored under the segment name itself changes nothing. -/
theorem getValue_related_uses_id (f : Field)
    (attrs : List (String × PyVal)) (raising : List String)
    (schema : List (String × FieldKind)) (seg : String)
    (hattr : f.attribute' = some seg)
    (hsingle : pySplit seg = [seg])
    (hfield : alistLookup schema seg = some .relational) :
    f.get_value (.vobj attrs raising (some schema)) =
      .ok (finishValue (rawAttr attrs raising (seg ++ "_id"))) ∧
    (∀ w, f.get_value (.vobj (setAttrList attrs seg w) raising (some schema)) =
      f.get_value (.vobj attrs raising (some schema))) := by
  have key : ∀ (l : List (String × PyVal)),
      f.get_value (.vobj l raising (some schema)) =
        .ok (finishValue (rawAttr l raising (seg ++ "_id"))) := by
    intro l
    have hrel : f.is_related_field (.vobj l raising (some schema)) = .ok true := by
      simp [Field.is_related_field, hattr, hsingle, hfield]
    simp only [Field.get_value, hattr, hsingle, Field.getValueLoop, hrel]
    by_cases hmem : (seg ++ "_id") ∈ raising
    · simp [getattrD, hmem, rawAttr, finishValue, pyCallable, isManagerV]
    · cases hlook : alistLookup l (seg ++ "_id") with
      | none =>
        simp [getattrD, hmem, hlook, rawAttr, isNone, finishValue, pyCallable, isManagerV]
      | some w =>
        by_cases hwn : w = PyVal.vnone
        · subst hwn
          simp [getattrD, hmem, hlook, rawAttr, isNone, finishValue, pyCallable, isManagerV]
        · simp [getattrD, hmem, hlook, rawAttr, isNone_eq_false hwn, Field.getValueLoop]
  refine ⟨key attrs, fun w => ?_⟩
  have hid : rawAttr (setAttrList attrs seg w) raising (seg ++ "_id") =
      rawAttr attrs raising (seg ++ "_id") := by
    unfold rawAttr
    rw [setAttrList_lookup_ne (Ne.symm (append_id_ne seg))]
  rw [key (setAttrList attrs seg w), key attrs, hid]

/-- Witness for C6: `category` relational with `category_id = 5` resolves
to `5`, however the `category` attribute itself is set. -/
theorem getValue_related_uses_id_witness :
    categoryField.get_value categoryObj = .ok (.vint 5) ∧
    categoryField.get_value
        (.vobj (setAttrList [("category_id", .vint 5)] "category" (.vstr "Books")) []
          (some [("category", .relational)])) =
      categoryField.get_value categoryObj := by
  have h := getValue_related_uses_id categoryField [("category_id", .vint 5)] []
    [("category", .relational)] "category" rfl (by decide) rfl
  exact ⟨h.1.trans rfl, h.2 (.vstr "Books")⟩

/-- Claim C7: when `get_value` resolves a non-`None` value, the export
related-ness check (evaluated against the original object) cannot raise;
if it is true the identifier value is returned unrendered, otherwise
`export` returns `widget.render` of the resolved value; and for any
multi-segment attribute path the check is false, so the bypass never
applies. -/
theorem export_related_bypass (f : Field) (obj v : PyVal)
    (hval : f.get_value obj = .ok v) (hv : v ≠ .vnone) :
    (∃ b, f.is_related_field obj = .ok b) ∧
    (f.is_related_field obj = .ok true → f.export' obj = .ok v) ∧
    (f.is_related_field obj = .ok false →
      f.export' obj = .ok (.vstr (f.widget.render v))) ∧
    (∀ a, f.attribute' = some a → (pySplit a).length ≠ 1 →
      f.is_related_field obj = .ok false) := by
  refine ⟨?_, ?_, ?_, ?_⟩
  · cases ha : f.attribute' with
    | none =>
      exfalso
      have h0 : f.get_value obj = .ok .vnone := by simp [Field.get_value, ha]
      exact hv (Except.ok.inj (hval.symm.trans h0))
    | some a =>
      cases hs : pySplit a with
      | nil => exact ⟨false, by simp [Field.is_related_field, ha, hs]⟩
      | cons seg rest =>
        cases rest with
        | nil =>
          cases hrel : f.is_related_field obj with
          | error e =>
            exfalso
            have h0 : f.get_value obj = .error e := by
              simp [Field.get_value, ha, hs, Field.getValueLoop, hrel]
            exact Except.noConfusion (hval.symm.trans h0)
          | ok b => exact ⟨b, rfl⟩
        | cons s2 rest2 => exact ⟨false, by simp [Field.is_related_field, ha, hs]⟩
  · intro hrel
    simp [Field.export', hval, isNone_eq_false hv, hrel]
  · intro hrel
    simp [Field.export', hval, isNone_eq_false hv, hrel]
  · intro a ha hlen
    cases hs : pySplit a with
    | nil => simp [Field.is_related_field, ha, hs]
    | cons seg rest =>
      cases rest with
      | nil => exact absurd (by rw [hs]; rfl) hlen
      | cons s2 r2 => simp [Field.is_related_field, ha, hs]

/-- Witness for C7 at the relational scenario: the check is true and the
identifier 5 is exported as-is, not widget-rendered. -/
theorem export_related_bypass_witness :
    categoryField.export' categoryObj = .ok (.vint 5) :=
  (export_related_bypass categoryField categoryObj (.vint 5) rfl
    (fun h => nomatch h)).2.1 rfl

/-- Claim C8: on a multi-segment path, once the walk reaches a value whose
next segment resolves to `None` (absent attribute, stored `None`, or an
access that raises the recovered missing-identity errors), `get_value`
returns `None` without raising, and independently of the remaining
segments. -/
theorem getValue_multiseg_null_short_circuit (f : Field) (a : String)
    (xs : List String) (seg : String) (rest : List String)
    (obj v : PyVal) (related : Bool)
    (hattr : f.attribute' = some a)
    (hsplit : pySplit a = xs ++ seg :: rest)
    (_hrest : rest ≠ [])
    (hwalk : f.getValueLoop xs obj = .ok (some v))
    (hrel : f.is_related_field v = .ok related)
    (hnull : (if related then getattrD v (seg ++ "_id") else getattrD v seg) = .ok .vnone ∨
      (∃ e, (if related then getattrD v (seg ++ "_id") else getattrD v seg) = .error e)) :
    f.get_value obj = .ok .vnone := by
  simp only [Field.get_value, hattr, hsplit]
  rw [getValueLoop_append, hwalk]
  simp only [Field.getValueLoop, hrel]
  rcases hnull with h | ⟨e, h⟩
  · rw [h]
    simp [isNone]
  · rw [h]

/-- Witness for C8: with `attribute="a__b"` and `a = None` on the object,
`get_value` is `None` and segment `b` is never consulted. -/
theorem getValue_multiseg_null_short_circuit_witness :
    pathField.get_value nullAObj = .ok .vnone :=
  getValue_multiseg_null_short_circuit pathField "a__b" [] "a" ["b"]
    nullAObj nullAObj false rfl (by decide) (fun h => nomatch h) rfl rfl
    (Or.inl rfl)

/-- Claim C4: for `attribute="a__b"` with matching column name, a
successful `save(obj, data)` followed by `get_value` on the updated object
yields exactly the value `clean(data)` produced (for non-callable cleaned
values; the object's `a` attribute must be a real object for the
assignment to land). -/
theorem save_get_value_roundtrip (f : Field) (data : List (String × PyVal))
    (attrs : List (String × PyVal)) (raising : List String)
    (meta : Option (List (String × FieldKind)))
    (attrsA : List (String × PyVal)) (raisingA : List String)
    (metaA : Option (List (String × FieldKind)))
    (v : PyVal) (f' : Field)
    (hattr : f.attribute' = some "a__b")
    (hro : f.readonly = false)
    (ha : alistLookup attrs "a" = some (.vobj attrsA raisingA metaA))
    (hnr : "a" ∉ raising)
    (hnrA : "b" ∉ raisingA)
    (hclean : f.clean data = .ok (v, f'))
    (hcall : pyCallable v = false) :
    ∃ obj2, f.save (.vobj attrs raising meta) data = .ok (obj2, f') ∧
      f.get_value obj2 = .ok v := by
  have hsplit : pySplit "a__b" = ["a", "b"] := by decide
  have hrel : ∀ u : PyVal, f.is_related_field u = .ok false := fun u => by
    simp [Field.is_related_field, hattr, hsplit]
  refine ⟨.vobj (setAttrList attrs "a"
      (.vobj (setAttrList attrsA "b" v) (raisingA.erase "b") metaA)) raising meta,
    ?_, ?_⟩
  · have hwalk : walkGetattr (.vobj attrs raising meta) ["a"] =
        .ok (.vobj attrsA raisingA metaA) := by
      simp [walkGetattr, getattrD, hnr, ha]
    have hd : (["a", "b"] : List String).dropLast = ["a"] := rfl
    have hg : (["a", "b"] : List String).getLastD "" = "b" := rfl
    simp only [Field.save, hro, Bool.false_eq_true, if_false, hattr, hsplit, hd, hg,
      hwalk, hclean]
    simp [writeBack, hnr, ha]
  · by_cases hvn : v = PyVal.vnone
    · subst hvn
      simp [Field.get_value, hattr, hsplit, Field.getValueLoop, hrel, getattrD, hnr,
        setAttrList_lookup_self, isNone, List.erase_of_not_mem hnrA, hnrA]
    · simp [Field.get_value, hattr, hsplit, Field.getValueLoop, hrel, getattrD, hnr,
        setAttrList_lookup_self, isNone, isNone_eq_false hvn,
        List.erase_of_not_mem hnrA, hnrA, finishValue_not_callable hcall]

/-- Witness for C4: saving `"x"` through `a__b` and reading it back. -/
theorem save_get_value_roundtrip_witness :
    ∃ obj2, pathField.save nestedObj [("col", .vstr "x")] = .ok (obj2, pathField) ∧
      pathField.get_value obj2 = .ok (.vstr "x") :=
  save_get_value_roundtrip pathField [("col", .vstr "x")]
    [("a", .vobj [] [] none)] [] none [] [] none (.vstr "x") pathField
    rfl rfl rfl (fun h => nomatch h) (fun h => nomatch h) rfl rfl

end ImportExport
